import Mathlib

/-!
Shallow embedding of the Sphinx-to-Jupyter notebook writer (`jupyter.py`):
the language-name translator, the cell-kind classifier/generator enum, the
two document translators (code-only and full), and the helper routines the
claims refer to.  Python strings are modelled as Lean `String`s, Python
lists as Lean `List`s, the mutable translator object as explicit state
passed through each handler, exceptions as `Except`, and emitted warnings
as a `Bool` flag in the result.
-/

set_option autoImplicit false

namespace SphinxJupyter

/-- Result of a Python operation that can raise: either a value or an
uncaught exception with its message. -/
inductive PyResult (α : Type)
  | ok (val : α)
  | raised (msg : String)
deriving DecidableEq

/-- Python `str.strip()`: remove leading and trailing whitespace characters
(modelled over the ASCII whitespace set). -/
def pyStrip (s : String) : String :=
  String.mk (((s.data.dropWhile Char.isWhitespace).reverse.dropWhile Char.isWhitespace).reverse)

/-- Python `text.split("\n")`: split on every newline, keeping empty parts. -/
def splitLines (s : String) : List String :=
  (s.data.splitOn '\n').map String.mk

/-- Output-cell kind of an `nbformat` cell: `"code"`, `"markdown"` or `"raw"`. -/
inductive CellType
  | code
  | markdown
  | raw
deriving DecidableEq

/-- An `nbformat.v4` cell: its type, its source text, and its (stream-text)
output records.  Only code cells ever carry outputs. -/
structure Cell where
  cell_type : CellType
  source : String
  outputs : List String
deriving DecidableEq

/-- `nbformat.v4.new_markdown_cell(text)`. -/
def new_markdown_cell (text : String) : Cell :=
  ⟨CellType.markdown, text, []⟩

/-- `nbformat.v4.new_code_cell(text)`. -/
def new_code_cell (text : String) : Cell :=
  ⟨CellType.code, text, []⟩

/-- `LanguageTranslator`: the mapping loaded from `languages.xml`, modelled as
the association list of (sphinx-name, jupyter-name) pairs that survived the
well-formedness check in `LanguageTranslator.__init__`. -/
structure LanguageTranslator where
  translator : List (String × String)

/-- `LanguageTranslator.translate`: the mapped name when the key is present in
the dictionary, the input unchanged otherwise. -/
def LanguageTranslator.translate (t : LanguageTranslator) (sphinxLanguageName : String) : String :=
  match t.translator.lookup sphinxLanguageName with
  | some jupyterName => jupyterName
  | none => sphinxLanguageName

/-- The `JupyterOutputCellGenerators` enum: CODE = 1, MARKDOWN = 2,
CODE_OUTPUT = 3. -/
inductive JupyterOutputCellGenerators
  | CODE
  | MARKDOWN
  | CODE_OUTPUT
deriving DecidableEq

/-- `JupyterOutputCellGenerators.GetGeneratorFromClasses`: scan the class list
in order starting from CODE; `"no-execute"` and `"skip-test"` force MARKDOWN,
`"output"` forces CODE_OUTPUT; the last recognized tag wins. -/
def JupyterOutputCellGenerators.GetGeneratorFromClasses
    (class_list : List String) : JupyterOutputCellGenerators :=
  class_list.foldl
    (fun res item =>
      if item = "no-execute" then JupyterOutputCellGenerators.MARKDOWN
      else if item = "skip-test" then JupyterOutputCellGenerators.MARKDOWN
      else if item = "output" then JupyterOutputCellGenerators.CODE_OUTPUT
      else res)
    JupyterOutputCellGenerators.CODE

/-- Result of `JupyterOutputCellGenerators.Generate`: either a fresh notebook
cell or a stream-output record (the CODE_OUTPUT case produces
`nbformat.v4.new_output(output_type="stream", text=...)`, which is not a
cell but an output record). -/
inductive GeneratedItem
  | cell (c : Cell)
  | outputRecord (text : String)
deriving DecidableEq

/-- `JupyterOutputCellGenerators.Generate`: CODE yields a new code cell;
CODE_OUTPUT yields a stream-output record; MARKDOWN wraps the text in a
fenced code block annotated with `translator.nodelang` (empty string when
that is unset/empty, mirroring Python truthiness) inside a new markdown
cell. -/
def JupyterOutputCellGenerators.Generate (g : JupyterOutputCellGenerators)
    (formatted_text : String) (nodelang : Option String) : GeneratedItem :=
  match g with
  | JupyterOutputCellGenerators.CODE =>
      GeneratedItem.cell (new_code_cell formatted_text)
  | JupyterOutputCellGenerators.CODE_OUTPUT =>
      GeneratedItem.outputRecord formatted_text
  | JupyterOutputCellGenerators.MARKDOWN =>
      let language := (nodelang.getD "")
      GeneratedItem.cell
        (new_markdown_cell ("```" ++ language ++ "\n" ++ formatted_text ++ "\n```\n"))

namespace JupyterCodeTranslator

/-- `len(line.strip()) == 0`: the line is empty after trimming whitespace. -/
def isBlankLine (s : String) : Bool :=
  (pyStrip s).length = 0

/-- The loop body of `strip_blank_lines_in_end_of_block`: iterate at most
`fuel` times (the Python loop runs `for line in range(len(lines))`), each
time dropping the last line if it is blank after trimming, stopping at the
first non-blank last line. -/
def stripLoop : Nat → List String → List String
  | 0, lines => lines
  | n + 1, lines =>
      match lines.getLast? with
      | none => lines
      | some last =>
          if isBlankLine last then stripLoop n lines.dropLast
          else lines

/-- `JupyterCodeTranslator.strip_blank_lines_in_end_of_block`: split on
newlines, repeatedly drop the trailing line while it is blank after
trimming, re-join with newlines. -/
def strip_blank_lines_in_end_of_block (line_text : String) : String :=
  let lines := splitLines line_text
  String.intercalate "\n" (stripLoop lines.length lines)

/-- `JupyterCodeTranslator.visit_literal_block` result: the mutated fields
(`output_cell_type`, `nodelang`, `in_code_block`, `code_lines`). -/
structure VisitLiteralBlockResult where
  output_cell_type : JupyterOutputCellGenerators
  nodelang : String
  in_code_block : Bool
  code_lines : List String
deriving DecidableEq

/-- `JupyterCodeTranslator.visit_literal_block`: classify the block from its
class attributes; take the declared language attribute stripped, falling
back to the current document language when the attribute is missing;
translate it; reset the code buffer; and if the translated block language
differs from the translated current document language, force the cell kind
to MARKDOWN. -/
def visit_literal_block (langTranslator : LanguageTranslator)
    (classes : List String) (language_attr : Option String) (lang : String) :
    VisitLiteralBlockResult :=
  let output_cell_type := JupyterOutputCellGenerators.GetGeneratorFromClasses classes
  let nodelang :=
    match language_attr with
    | some l => pyStrip l
    | none => lang
  let nodelang := langTranslator.translate nodelang
  let output_cell_type :=
    if nodelang ≠ langTranslator.translate lang then
      JupyterOutputCellGenerators.MARKDOWN
    else output_cell_type
  ⟨output_cell_type, nodelang, true, []⟩

/-- `JupyterCodeTranslator.depart_literal_block`: join and strip the code
buffer, generate the item for the block's cell kind, then: CODE_OUTPUT items
are attached to the most recent cell's outputs when that cell is a code
cell with no outputs — a non-code most-recent cell or a non-empty outputs
list is warned about and the block dropped, and indexing `cells[-1]` on an
empty cell list raises IndexError; all other kinds append a new cell.
The `Bool` in the result records whether a warning was emitted. -/
def depart_literal_block (output_cell_type : JupyterOutputCellGenerators)
    (nodelang : Option String) (cells : List Cell) (code_lines : List String) :
    PyResult (List Cell × Bool) :=
  let line_text := String.join code_lines
  let formatted_line_text := strip_blank_lines_in_end_of_block line_text
  let new_code_cell := output_cell_type.Generate formatted_line_text nodelang
  if output_cell_type = JupyterOutputCellGenerators.CODE_OUTPUT then
    match cells.getLast? with
    | none => PyResult.raised "IndexError: list index out of range"
    | some mostRecentCell =>
        if mostRecentCell.cell_type ≠ CellType.code then
          PyResult.ok (cells, true)
        else if mostRecentCell.outputs ≠ [] then
          PyResult.ok (cells, true)
        else
          match new_code_cell with
          | GeneratedItem.outputRecord t =>
              PyResult.ok
                (cells.dropLast ++
                  [{ mostRecentCell with outputs := mostRecentCell.outputs ++ [t] }], false)
          | GeneratedItem.cell _ => PyResult.ok (cells, false)
  else
    match new_code_cell with
    | GeneratedItem.cell c => PyResult.ok (cells ++ [c], false)
    | GeneratedItem.outputRecord _ => PyResult.ok (cells, false)

/-- Python `list.insert(i, x)` (index within bounds or clamped to the end). -/
def listInsert (l : List Cell) (i : Nat) (x : Cell) : List Cell :=
  l.take i ++ x :: l.drop i

/-- The header-insertion step of `JupyterCodeTranslator.depart_document`:
when a headers mapping is configured, look up the header cells for the
final language and insert each, iterating the list in reverse, at index 1
when metadata-writing is enabled and at index 0 otherwise; a failed lookup
warns and leaves the cells unchanged.  The `Bool` records the warning. -/
def depart_document_headers (jupyter_headers : Option (List (String × List Cell)))
    (jupyter_write_metadata : Bool) (lang : String) (cells : List Cell) :
    List Cell × Bool :=
  match jupyter_headers with
  | none => (cells, false)
  | some headers =>
      match headers.lookup lang with
      | none => (cells, true)
      | some hs =>
          (hs.reverse.foldl
            (fun acc h =>
              if jupyter_write_metadata then listInsert acc 1 h
              else listInsert acc 0 h)
            cells, false)

/-- The cell list built by `JupyterCodeTranslator.__init__`: an optional
welcome-block markdown cell (its text stripped of trailing blank lines)
followed by an optional generation-metadata markdown cell when
metadata-writing is enabled. -/
def init_cells (welcome_text : Option String) (jupyter_write_metadata : Bool)
    (metadata_text : String) : List Cell :=
  (match welcome_text with
   | some w => [new_markdown_cell (strip_blank_lines_in_end_of_block w)]
   | none => [])
  ++ (if jupyter_write_metadata then [new_markdown_cell metadata_text] else [])

end JupyterCodeTranslator

namespace JupyterWriter

/-- Which translator class the writer selects. -/
inductive TranslatorClass
  | codeTranslator
  | fullTranslator
deriving DecidableEq

/-- The conversion-mode selection in `JupyterWriter.__init__`: an absent or
`None` config value warns and falls back to `"code"`; `"code"` and `"all"`
are taken as given; any other value warns and falls back to `"code"`.  The
`Bool` records whether a warning was emitted. -/
def conversion_mode (config_value : Option String) : String × Bool :=
  match config_value with
  | none => ("code", true)
  | some m =>
      if m = "code" then ("code", false)
      else if m = "all" then ("all", false)
      else ("code", true)

/-- The translator-class selection in `JupyterWriter.__init__`: mode
`"code"` selects `JupyterCodeTranslator`, anything else selects
`JupyterTranslator`. -/
def translator_class (mode : String) : TranslatorClass :=
  if mode = "code" then TranslatorClass.codeTranslator
  else TranslatorClass.fullTranslator

end JupyterWriter

namespace JupyterTranslator

open JupyterCodeTranslator (strip_blank_lines_in_end_of_block isBlankLine)

/-- `self.sep_paras` in `JupyterTranslator.__init__`. -/
def sep_paras : String := "\n\n"

/-- `JupyterTranslator.add_markdown_cell`: join the markdown buffer, strip
trailing blank lines, and when the remaining text is non-empty after
trimming append a markdown cell and clear the buffer; otherwise nothing
happens (in particular the buffer is left as it was).  Returns the new
cell list and the new buffer. -/
def add_markdown_cell (cells : List Cell) (markdown_lines : List String) :
    List Cell × List String :=
  let line_text := String.join markdown_lines
  let formatted_line_text := strip_blank_lines_in_end_of_block line_text
  if 0 < (pyStrip formatted_line_text).length then
    (cells ++ [new_markdown_cell formatted_line_text], [])
  else
    (cells, markdown_lines)

/-- The in-topic branch of `JupyterTranslator.depart_reference`: join the
buffer entries appended since the reference was entered, strip surrounding
whitespace, replace every whitespace character by `URI_SPACE_REPLACE_TO`
(`"-"`; the pattern `\s` matches one whitespace character), and append the
anchor `](#slug)` to the buffer. -/
def depart_reference_in_topic (markdown_lines : List String)
    (reference_text_start : Nat) : List String :=
  let uri_text := pyStrip (String.join (markdown_lines.drop reference_text_start))
  let uri_text :=
    String.mk (uri_text.data.map (fun c => if c.isWhitespace then '-' else c))
  markdown_lines ++ ["](#" ++ uri_text ++ ")"]

/-- `JupyterTranslator.split_uri_id`: the two groups of
`re.search(r"([^\#]*)\#?(.*)", uri)` — everything before the first `#`,
and what follows the optional `#` up to the first newline (the regex `.`
does not match a newline). -/
def split_uri_id (uri : String) : String × String :=
  let g1 := uri.data.takeWhile (fun c => c ≠ '#')
  let g2 := ((uri.data.dropWhile (fun c => c ≠ '#')).tail).takeWhile (fun c => c ≠ '\n')
  (String.mk g1, String.mk g2)

/-- `JupyterTranslator.add_extension_to_inline_link`: a uri containing a `.`
anywhere is returned unchanged; otherwise it is split by `split_uri_id`
and reassembled as `pre ++ ext ++ "#" ++ id`. -/
def add_extension_to_inline_link (uri : String) (ext : String) : String :=
  if ¬ uri.data.contains '.' then
    let p := split_uri_id uri
    p.1 ++ ext ++ "#" ++ p.2
  else uri

/-- The traversal state of the full translator that the section/list
handlers read and write: the growing cell list, the markdown buffer, the
section-depth counter, the list-nesting level, and the bullet-marker and
indent-width stacks, plus the in-topic flag consulted by
`depart_bullet_list`. -/
structure TState where
  cells : List Cell
  markdown_lines : List String
  section_level : Int
  list_level : Int
  bullets : List String
  indents : List Nat
  in_topic : Bool
deriving DecidableEq

/-- `add_markdown_cell` acting on the traversal state. -/
def add_markdown_cell_state (s : TState) : TState :=
  let r := add_markdown_cell s.cells s.markdown_lines
  { s with cells := r.1, markdown_lines := r.2 }

/-- `JupyterTranslator.visit_section`: `self.section_level += 1`. -/
def visit_section (s : TState) : TState :=
  { s with section_level := s.section_level + 1 }

/-- `JupyterTranslator.depart_section`: `self.section_level -= 1`. -/
def depart_section (s : TState) : TState :=
  { s with section_level := s.section_level - 1 }

/-- `JupyterTranslator.visit_bullet_list`: increment the nesting level, push
marker `"-"`, push indent `len(self.bullets[-1]) + 1`. -/
def visit_bullet_list (s : TState) : TState :=
  let bullets := s.bullets ++ ["-"]
  { s with
      list_level := s.list_level + 1,
      bullets := bullets,
      indents := s.indents ++ [(bullets.getLast (by simp [bullets])).length + 1] }

/-- `JupyterTranslator.depart_bullet_list`: decrement the nesting level; when
it returns to 0, append a paragraph separator and, inside a topic, flush
the markdown buffer; finally pop both the bullets and the indents stacks
(`list.pop()` on the non-empty stacks every matched depart sees). -/
def depart_bullet_list (s : TState) : TState :=
  let s := { s with list_level := s.list_level - 1 }
  let s :=
    if s.list_level = 0 then
      let s := { s with markdown_lines := s.markdown_lines ++ [sep_paras] }
      if s.in_topic then add_markdown_cell_state s else s
    else s
  { s with bullets := s.bullets.dropLast, indents := s.indents.dropLast }

/-- `JupyterTranslator.visit_enumerated_list`: increment the nesting level,
push marker `"1."`, push indent `len(self.bullets[-1]) + 1`. -/
def visit_enumerated_list (s : TState) : TState :=
  let bullets := s.bullets ++ ["1."]
  { s with
      list_level := s.list_level + 1,
      bullets := bullets,
      indents := s.indents ++ [(bullets.getLast (by simp [bullets])).length + 1] }

/-- `JupyterTranslator.depart_enumerated_list`: decrement the nesting level;
when it returns to 0, append a paragraph separator; pop both stacks. -/
def depart_enumerated_list (s : TState) : TState :=
  let s := { s with list_level := s.list_level - 1 }
  let s :=
    if s.list_level = 0 then
      { s with markdown_lines := s.markdown_lines ++ [sep_paras] }
    else s
  { s with bullets := s.bullets.dropLast, indents := s.indents.dropLast }

/-- The four traversal-state components claim C9 is about: section depth,
list-nesting level, bullets stack, indents stack. -/
def listState (s : TState) : Int × Int × List String × List Nat :=
  (s.section_level, s.list_level, s.bullets, s.indents)

end JupyterTranslator

/-! ### Helper lemmas -/

namespace JupyterCodeTranslator

/-- The strip loop, run with fuel at least the number of lines, removes
exactly the maximal trailing run of blank-after-trim lines. -/
theorem stripLoop_eq_dropWhile (lines : List String) (fuel : Nat)
    (h : lines.length ≤ fuel) :
    stripLoop fuel lines = (lines.reverse.dropWhile isBlankLine).reverse := by
  induction lines using List.reverseRecOn generalizing fuel with
  | nil =>
      cases fuel with
      | zero => simp [stripLoop]
      | succ n => simp [stripLoop]
  | append_singleton l a ih =>
      cases fuel with
      | zero => simp at h
      | succ n =>
          have hlen : l.length ≤ n := by
            simpa using Nat.lt_succ_iff.mp (Nat.lt_of_lt_of_le (by simp) h)
          by_cases ha : isBlankLine a
          · simp only [stripLoop, List.getLast?_concat, ha, if_true]
            rw [show (l ++ [a]).dropLast = l by simp, ih n hlen]
            rw [show (l ++ [a]).reverse = a :: l.reverse by simp,
              List.dropWhile_cons_of_pos ha]
          · simp only [stripLoop, List.getLast?_concat, ha, if_false]
            rw [show (l ++ [a]).reverse = a :: l.reverse by simp,
              List.dropWhile_cons_of_neg ha]
            simp

/-- `strip_blank_lines_in_end_of_block`, characterized: split into lines,
drop the maximal trailing blank run, re-join. -/
theorem strip_blank_lines_eq (line_text : String) :
    strip_blank_lines_in_end_of_block line_text
      = String.intercalate "\n"
          (((splitLines line_text).reverse.dropWhile isBlankLine).reverse) := by
  show String.intercalate "\n"
      (stripLoop (splitLines line_text).length (splitLines line_text)) = _
  rw [stripLoop_eq_dropWhile _ _ (Nat.le_refl _)]

/-- A text all of whose lines are blank after trimming strips to the empty
string. -/
theorem strip_all_blank (line_text : String)
    (h : ∀ l ∈ splitLines line_text, isBlankLine l) :
    strip_blank_lines_in_end_of_block line_text = "" := by
  rw [strip_blank_lines_eq]
  have hnil : (splitLines line_text).reverse.dropWhile isBlankLine = [] := by
    rw [List.dropWhile_eq_nil_iff]
    intro x hx
    exact h x (List.mem_reverse.mp hx)
  rw [hnil]
  rfl

/-- Folding `insert at index 1` over a reversed header list (equivalently, a
right fold over the list itself), starting from a non-empty cell list,
lands the headers in their original order right after the first cell. -/
theorem foldr_listInsert_one (hs : List Cell) (a : Cell) (rest : List Cell) :
    hs.foldr (fun x acc => listInsert acc 1 x) (a :: rest) = a :: (hs ++ rest) := by
  induction hs with
  | nil => rfl
  | cons x xs ih =>
      show listInsert (xs.foldr (fun x acc => listInsert acc 1 x) (a :: rest)) 1 x = _
      rw [ih]
      simp [listInsert]

/-- Folding `insert at index 0` over a reversed header list prepends the
headers in their original order. -/
theorem foldr_listInsert_zero (hs : List Cell) (acc : List Cell) :
    hs.foldr (fun x acc => listInsert acc 0 x) acc = hs ++ acc := by
  induction hs with
  | nil => rfl
  | cons x xs ih => simp [listInsert, ih]

end JupyterCodeTranslator

namespace JupyterTranslator

/-- Flushing the markdown buffer never changes the four stack/counter
components of the traversal state. -/
theorem listState_add_markdown_cell_state (s : TState) :
    listState (add_markdown_cell_state s) = listState s := by
  unfold add_markdown_cell_state listState
  rfl

end JupyterTranslator

/-! ### The claims -/

open JupyterCodeTranslator JupyterTranslator JupyterWriter

/-- Claim C7: for every text committed as a markdown or code cell,
`strip_blank_lines_in_end_of_block` removes exactly the maximal run of
trailing blank-after-trim lines — the remaining lines, internal blank
lines included, are re-joined unchanged — and a buffer consisting only of
blank lines produces no cell when flushed through `add_markdown_cell`. -/
theorem strip_trailing_blank_lines_exact (s : String) :
    (strip_blank_lines_in_end_of_block s
      = String.intercalate "\n"
          (((splitLines s).reverse.dropWhile isBlankLine).reverse))
    ∧ (∀ (cells : List Cell) (buf : List String),
        (∀ l ∈ splitLines (String.join buf), isBlankLine l) →
        (add_markdown_cell cells buf).1 = cells) := by
  refine ⟨strip_blank_lines_eq s, ?_⟩
  intro cells buf h
  have hs := strip_all_blank _ h
  simp [add_markdown_cell, hs, pyStrip]

/-- Witness for C7: a concrete text keeps internal blank lines and loses the
trailing blank run, and flushing an all-blank buffer appends nothing. -/
theorem strip_trailing_blank_lines_exact_witness :
    strip_blank_lines_in_end_of_block "a\n\nb\n \n\n"
        = String.intercalate "\n"
            (((splitLines "a\n\nb\n \n\n").reverse.dropWhile isBlankLine).reverse)
    ∧ (add_markdown_cell [] [" ", "\n"]).1 = [] :=
  ⟨(strip_trailing_blank_lines_exact "a\n\nb\n \n\n").1,
   (strip_trailing_blank_lines_exact "x").2 [] [" ", "\n"] (by decide)⟩

/-- Claim C8: `translate` returns the mapped kernel-registry name when the
language is present in the loaded mapping table and the input unchanged
otherwise. -/
theorem translate_mapped_or_identity (t : LanguageTranslator) (name : String) :
    (∀ j, t.translator.lookup name = some j → t.translate name = j)
    ∧ (t.translator.lookup name = none → t.translate name = name) := by
  constructor
  · intro j hj
    simp [LanguageTranslator.translate, hj]
  · intro hj
    simp [LanguageTranslator.translate, hj]

/-- Witness for C8: the claim's concrete mapping —
`translate("sphinx-lang-X") = "kernel-lang-Y"` and
`translate("plain") = "plain"`. -/
theorem translate_mapped_or_identity_witness :
    (LanguageTranslator.mk [("sphinx-lang-X", "kernel-lang-Y")]).translate "sphinx-lang-X"
        = "kernel-lang-Y"
    ∧ (LanguageTranslator.mk [("sphinx-lang-X", "kernel-lang-Y")]).translate "plain"
        = "plain" :=
  ⟨(translate_mapped_or_identity ⟨[("sphinx-lang-X", "kernel-lang-Y")]⟩ "sphinx-lang-X").1
      "kernel-lang-Y" (by decide),
   (translate_mapped_or_identity ⟨[("sphinx-lang-X", "kernel-lang-Y")]⟩ "plain").2 (by decide)⟩

/-- Claim C2 counterexample: flushing the blank-after-trim buffer `[" "]`
appends no cell but also does NOT clear the buffer — the reset of
`markdown_lines` sits inside the branch that appends a cell — so the
claim's "always clears the buffer afterwards, including when the buffer was
empty-after-trim" is false. -/
theorem add_markdown_cell_keeps_blank_buffer :
    add_markdown_cell [] [" "] = ([], [" "])
    ∧ ([" "] : List String) ≠ [] :=
  ⟨by decide, by decide⟩

/-- Claim C2 (amended): `add_markdown_cell` joins the buffer, strips trailing
blank lines, and appends a markdown cell and clears the buffer exactly when
the remaining text is non-empty after trimming; when the buffer is
empty-after-trim no cell is appended and the buffer is left unchanged (not
cleared); no empty markdown cell is ever produced. -/
theorem add_markdown_cell_rules (cells : List Cell) (buf : List String) :
    (0 < (pyStrip (strip_blank_lines_in_end_of_block (String.join buf))).length →
      add_markdown_cell cells buf
        = (cells ++ [new_markdown_cell (strip_blank_lines_in_end_of_block (String.join buf))], []))
    ∧ ((pyStrip (strip_blank_lines_in_end_of_block (String.join buf))).length = 0 →
      add_markdown_cell cells buf = (cells, buf))
    ∧ (∀ c ∈ (add_markdown_cell cells buf).1,
        c ∈ cells ∨ 0 < (pyStrip c.source).length) := by
  refine ⟨?_, ?_, ?_⟩
  · intro h
    simp [add_markdown_cell, h]
  · intro h
    simp [add_markdown_cell, h]
  · intro c hc
    by_cases h : 0 < (pyStrip (strip_blank_lines_in_end_of_block (String.join buf))).length
    · simp only [add_markdown_cell, if_pos h, List.mem_append, List.mem_singleton] at hc
      rcases hc with hc | hc
      · exact Or.inl hc
      · subst hc
        exact Or.inr h
    · simp only [add_markdown_cell, if_neg h] at hc
      exact Or.inl hc

/-- Witness for C2 (amended): a non-blank buffer becomes a cell and is
cleared; a blank buffer appends nothing and stays as it was. -/
theorem add_markdown_cell_rules_witness :
    add_markdown_cell [] ["Hello"] = ([new_markdown_cell "Hello"], [])
    ∧ add_markdown_cell [] [" ", "\n"] = ([], [" ", "\n"]) :=
  ⟨((add_markdown_cell_rules [] ["Hello"]).1 (by decide)).trans (by decide),
   (add_markdown_cell_rules [] [" ", "\n"]).2.1 (by decide)⟩

/-- Claim C5: an unset conversion mode, or any value other than `"code"` and
`"all"`, warns and falls back to `"code"`; `"all"` selects the full
translator and `"code"` the code-only translator; the selection is total —
the resulting mode is always one of the two variants, so an invalid mode
never aborts the conversion. -/
theorem conversion_mode_rules (config_value : Option String) :
    (config_value = none → conversion_mode config_value = ("code", true))
    ∧ (∀ m, config_value = some m → m ≠ "code" → m ≠ "all" →
        conversion_mode config_value = ("code", true))
    ∧ conversion_mode (some "code") = ("code", false)
    ∧ conversion_mode (some "all") = ("all", false)
    ∧ ((conversion_mode config_value).1 = "code" ∨ (conversion_mode config_value).1 = "all")
    ∧ translator_class "code" = TranslatorClass.codeTranslator
    ∧ translator_class "all" = TranslatorClass.fullTranslator := by
  refine ⟨?_, ?_, by decide, by decide, ?_, by decide, by decide⟩
  · intro hc
    subst hc
    rfl
  · intro m hm h1 h2
    subst hm
    simp [conversion_mode, h1, h2]
  · cases config_value with
    | none => exact Or.inl rfl
    | some m =>
        by_cases h1 : m = "code"
        · exact Or.inl (by simp [conversion_mode, h1])
        · by_cases h2 : m = "all"
          · exact Or.inr (by simp [conversion_mode, h1, h2])
          · exact Or.inl (by simp [conversion_mode, h1, h2])

/-- Witness for C5: the invalid mode `"markdown"` and the unset mode both
fall back to `"code"` with a warning. -/
theorem conversion_mode_rules_witness :
    conversion_mode (some "markdown") = ("code", true)
    ∧ conversion_mode none = ("code", true) :=
  ⟨(conversion_mode_rules (some "markdown")).2.1 "markdown" rfl (by decide) (by decide),
   (conversion_mode_rules none).1 rfl⟩

/-- Claim C1 counterexample: closing a CODE_OUTPUT block when NO cell
precedes it is not "rejected with a warning and ignored" — indexing
`cells[-1]` on the empty cell list raises IndexError, so the conversion
fails instead of warning and leaving the cell list unchanged. -/
theorem depart_literal_block_empty_cells_raises :
    depart_literal_block JupyterOutputCellGenerators.CODE_OUTPUT none [] ["out"]
      = PyResult.raised "IndexError: list index out of range"
    ∧ depart_literal_block JupyterOutputCellGenerators.CODE_OUTPUT none [] ["out"]
      ≠ PyResult.ok ([], true)
    ∧ depart_literal_block JupyterOutputCellGenerators.CODE_OUTPUT none [] ["out"]
      ≠ PyResult.ok ([], false) :=
  ⟨by decide, by decide, by decide⟩

/-- Claim C1 (amended): when a CODE_OUTPUT literal block is closed and at
least one cell precedes it, its stripped text becomes the single output
record of the most recent cell if that cell is a code cell with no existing
output; if the most recent cell is not a code cell, or already has an
output attachment, the block is rejected with a warning and the cell list
(any earlier attachment included) is left unchanged.  When no cell precedes
the block, the code raises IndexError instead of warning (see the
counterexample). -/
theorem depart_literal_block_output_rules
    (nodelang : Option String) (cells : List Cell) (code_lines : List String)
    (h : cells ≠ []) :
    ((cells.getLast h).cell_type = CellType.code → (cells.getLast h).outputs = [] →
      depart_literal_block JupyterOutputCellGenerators.CODE_OUTPUT nodelang cells code_lines
        = PyResult.ok (cells.dropLast ++
            [{ cells.getLast h with
                outputs := [strip_blank_lines_in_end_of_block (String.join code_lines)] }],
            false))
    ∧ ((cells.getLast h).cell_type ≠ CellType.code →
      depart_literal_block JupyterOutputCellGenerators.CODE_OUTPUT nodelang cells code_lines
        = PyResult.ok (cells, true))
    ∧ ((cells.getLast h).outputs ≠ [] →
      depart_literal_block JupyterOutputCellGenerators.CODE_OUTPUT nodelang cells code_lines
        = PyResult.ok (cells, true)) := by
  have hlast : cells.getLast? = some (cells.getLast h) := List.getLast?_eq_getLast cells h
  refine ⟨?_, ?_, ?_⟩
  · intro hc ho
    simp [depart_literal_block, hlast, JupyterOutputCellGenerators.Generate, hc, ho]
  · intro hc
    simp [depart_literal_block, hlast, hc]
  · intro ho
    by_cases hc : (cells.getLast h).cell_type = CellType.code
    · simp [depart_literal_block, hlast, hc, ho]
    · simp [depart_literal_block, hlast, hc]

/-- Witness for C1 (amended): an output block right after a fresh code cell
attaches its stripped text as the cell's single output; a second output
block after the same cell is dropped with a warning and the first
attachment survives. -/
theorem depart_literal_block_output_rules_witness :
    depart_literal_block JupyterOutputCellGenerators.CODE_OUTPUT none
        [new_code_cell "x = 1"] ["out\n"]
      = PyResult.ok ([⟨CellType.code, "x = 1", ["out"]⟩], false)
    ∧ depart_literal_block JupyterOutputCellGenerators.CODE_OUTPUT none
        [⟨CellType.code, "x = 1", ["out"]⟩] ["again"]
      = PyResult.ok ([⟨CellType.code, "x = 1", ["out"]⟩], true) :=
  ⟨((depart_literal_block_output_rules none [new_code_cell "x = 1"] ["out\n"]
      (by decide)).1 (by decide) (by decide)).trans (by decide),
   (depart_literal_block_output_rules none [⟨CellType.code, "x = 1", ["out"]⟩] ["again"]
      (by decide)).2.2 (by decide)⟩

/-- Claim C3: if the translated declared block language (falling back to the
current document language when none is declared) differs from the
translated current document language, `visit_literal_block` forces the
cell kind to MARKDOWN regardless of the annotation tags (including
`"output"`), and the MARKDOWN generator renders a fenced markdown cell —
never an executable code cell. -/
theorem visit_literal_block_lang_mismatch (tr : LanguageTranslator)
    (classes : List String) (language_attr : Option String) (lang : String)
    (h : tr.translate ((language_attr.map pyStrip).getD lang) ≠ tr.translate lang) :
    (visit_literal_block tr classes language_attr lang).output_cell_type
      = JupyterOutputCellGenerators.MARKDOWN
    ∧ ∀ text nl, JupyterOutputCellGenerators.Generate
        (visit_literal_block tr classes language_attr lang).output_cell_type text nl
      = GeneratedItem.cell
          (new_markdown_cell ("```" ++ nl.getD "" ++ "\n" ++ text ++ "\n```\n")) := by
  have hkind : (visit_literal_block tr classes language_attr lang).output_cell_type
      = JupyterOutputCellGenerators.MARKDOWN := by
    cases language_attr with
    | none => simp at h
    | some l =>
        have hl : tr.translate (pyStrip l) ≠ tr.translate lang := by simpa using h
        simp [visit_literal_block, hl]
  refine ⟨hkind, ?_⟩
  intro text nl
  rw [hkind]
  rfl

/-- Witness for C3: a block declared `"sphinx-lang-X"` (mapped to
`"kernel-lang-Y"`) in a `"plain"` document is forced to MARKDOWN even
though its `"output"` tag classified it as CODE_OUTPUT. -/
theorem visit_literal_block_lang_mismatch_witness :
    (visit_literal_block ⟨[("sphinx-lang-X", "kernel-lang-Y")]⟩ ["output"]
        (some "sphinx-lang-X") "plain").output_cell_type
      = JupyterOutputCellGenerators.MARKDOWN :=
  (visit_literal_block_lang_mismatch ⟨[("sphinx-lang-X", "kernel-lang-Y")]⟩ ["output"]
    (some "sphinx-lang-X") "plain" (by decide)).1

/-- Claim C4 counterexample: with a welcome cell present and metadata-writing
enabled, the metadata cell sits at index 1 and the headers are inserted at
index 1 — landing BEFORE the metadata cell, not immediately after it as the
claim states (the claimed result would be [welcome, metadata, header]). -/
theorem depart_document_headers_before_metadata :
    depart_document_headers (some [("python3", [new_code_cell "H"])]) true "python3"
        (init_cells (some "W") true "M")
      = ([new_markdown_cell "W", new_code_cell "H", new_markdown_cell "M"], false)
    ∧ ([new_markdown_cell "W", new_code_cell "H", new_markdown_cell "M"]
        ≠ [new_markdown_cell "W", new_markdown_cell "M", new_code_cell "H"]) :=
  ⟨by decide, by decide⟩

/-- Claim C4 (amended): at document exit with a headers mapping configured,
the header cells for the final language are inserted in their original
order at index 1 when metadata-writing is enabled — immediately after the
FIRST cell, which is the metadata cell only when no welcome cell precedes
it — and at position 0 when it is disabled; on any lookup failure the whole
insertion is skipped with a warning and the cell list is left as it was. -/
theorem depart_document_headers_rules (headers : List (String × List Cell))
    (wm : Bool) (lang : String) (cells : List Cell) (h : cells ≠ []) :
    (headers.lookup lang = none →
      depart_document_headers (some headers) wm lang cells = (cells, true))
    ∧ (∀ hs, headers.lookup lang = some hs →
        depart_document_headers (some headers) wm lang cells
          = ((if wm then cells.take 1 ++ hs ++ cells.drop 1 else hs ++ cells), false))
    ∧ depart_document_headers none wm lang cells = (cells, false) := by
  obtain ⟨a, rest, rfl⟩ : ∃ a rest, cells = a :: rest := by
    cases cells with
    | nil => exact absurd rfl h
    | cons a rest => exact ⟨a, rest, rfl⟩
  refine ⟨?_, ?_, rfl⟩
  · intro hl
    simp [depart_document_headers, hl]
  · intro hs hl
    cases wm with
    | true =>
        simp [depart_document_headers, hl, foldr_listInsert_one]
    | false =>
        simp [depart_document_headers, hl, foldr_listInsert_zero]

/-- Witness for C4 (amended): headers prepended at position 0 when
metadata-writing is disabled, and skipped with a warning when the final
language has no entry in the headers mapping. -/
theorem depart_document_headers_rules_witness :
    depart_document_headers (some [("python3", [new_code_cell "H"])]) false "python3"
        [new_markdown_cell "M"]
      = ([new_code_cell "H", new_markdown_cell "M"], false)
    ∧ depart_document_headers (some [("julia", [new_code_cell "H"])]) true "python3"
        [new_markdown_cell "M"]
      = ([new_markdown_cell "M"], true) :=
  ⟨((depart_document_headers_rules [("python3", [new_code_cell "H"])] false "python3"
      [new_markdown_cell "M"] (by decide)).2.1 [new_code_cell "H"] (by decide)).trans
      (by decide),
   (depart_document_headers_rules [("julia", [new_code_cell "H"])] true "python3"
      [new_markdown_cell "M"] (by decide)).1 (by decide)⟩

/-- Claim C6 counterexample: the slug rule is `re.sub(r"\s", "-", text)`,
which replaces every whitespace CHARACTER with its own dash; the visible
text "Setup  Guide" (two spaces) yields the anchor "#Setup--Guide", not the
"#Setup-Guide" that a run-collapsing rule would produce. -/
theorem depart_reference_double_space :
    depart_reference_in_topic ["[", "Setup  Guide"] 1
      = ["[", "Setup  Guide", "](#Setup--Guide)"]
    ∧ ("](#Setup--Guide)" : String) ≠ "](#Setup-Guide)" :=
  ⟨by decide, by decide⟩

/-- Claim C6 (amended): on exiting a reference inside a topic context, the
visible text collected since the reference was entered is stripped of
surrounding whitespace and each whitespace CHARACTER (not each run) is
replaced by a single dash, the result becoming the local anchor target —
so the slug never contains whitespace, and the claim's own example holds:
visible text "Setup Guide" yields link target "#Setup-Guide". -/
theorem depart_reference_in_topic_slug (markdown_lines : List String) (start : Nat) :
    (depart_reference_in_topic markdown_lines start
      = markdown_lines ++
        ["](#" ++ String.mk ((pyStrip (String.join (markdown_lines.drop start))).data.map
            (fun c => if c.isWhitespace then '-' else c)) ++ ")"])
    ∧ depart_reference_in_topic ["[", "Setup Guide"] 1
      = ["[", "Setup Guide", "](#Setup-Guide)"]
    ∧ ∀ c ∈ (pyStrip (String.join (markdown_lines.drop start))).data.map
          (fun c => if c.isWhitespace then '-' else c), c.isWhitespace = false := by
  refine ⟨rfl, by decide, ?_⟩
  intro c hc
  obtain ⟨a, _, rfl⟩ := List.mem_map.mp hc
  by_cases hw : a.isWhitespace
  · rw [if_pos hw]
    decide
  · rw [if_neg hw]
    simpa using hw

/-- Witness for C6 (amended): instantiating the no-whitespace-in-slug part
at the claim's own example. -/
theorem depart_reference_in_topic_slug_witness :
    ('-' : Char).isWhitespace = false :=
  (depart_reference_in_topic_slug ["[", "Setup Guide"] 1).2.2 '-' (by decide)

/-- `depart_bullet_list` only decrements the nesting level and pops the two
stacks, as far as the four stack/counter components are concerned. -/
theorem listState_depart_bullet_list (t : TState) :
    listState (depart_bullet_list t)
      = (t.section_level, t.list_level - 1, t.bullets.dropLast, t.indents.dropLast) := by
  unfold depart_bullet_list
  by_cases h : t.list_level - 1 = 0
  · by_cases ht : t.in_topic <;>
      simp [h, ht, listState, add_markdown_cell_state]
  · simp [h, listState]

/-- `depart_enumerated_list` only decrements the nesting level and pops the
two stacks, as far as the four stack/counter components are concerned. -/
theorem listState_depart_enumerated_list (t : TState) :
    listState (depart_enumerated_list t)
      = (t.section_level, t.list_level - 1, t.bullets.dropLast, t.indents.dropLast) := by
  unfold depart_enumerated_list
  by_cases h : t.list_level - 1 = 0 <;> simp [h, listState]

/-- Claim C9: for every section, bullet_list or enumerated_list node, if the
interior of the matched visit/depart pair leaves the section-depth counter,
list-nesting level and bullets/indents stacks exactly as the visit left
them, then the depart restores all four to their values before the visit:
every push or increment is balanced by a pop or decrement. -/
theorem visit_depart_state_balanced (s tS tB tE : TState)
    (hS : listState tS = listState (visit_section s))
    (hB : listState tB = listState (visit_bullet_list s))
    (hE : listState tE = listState (visit_enumerated_list s)) :
    listState (depart_section tS) = listState s
    ∧ listState (depart_bullet_list tB) = listState s
    ∧ listState (depart_enumerated_list tE) = listState s := by
  simp only [listState, visit_section, visit_bullet_list, visit_enumerated_list,
    Prod.mk.injEq] at hS hB hE
  obtain ⟨hS1, hS2, hS3, hS4⟩ := hS
  obtain ⟨hB1, hB2, hB3, hB4⟩ := hB
  obtain ⟨hE1, hE2, hE3, hE4⟩ := hE
  refine ⟨?_, ?_, ?_⟩
  · simp [depart_section, listState, hS1, hS2, hS3, hS4]
  · rw [listState_depart_bullet_list]
    simp [hB1, hB2, hB3, hB4, listState]
  · rw [listState_depart_enumerated_list]
    simp [hE1, hE2, hE3, hE4, listState]

/-- Witness for C9: a concrete empty traversal state, with the interior of
each pair the identity. -/
theorem visit_depart_state_balanced_witness :
    listState (depart_section (visit_section ⟨[], [], 0, 0, [], [], false⟩))
      = listState ⟨[], [], 0, 0, [], [], false⟩
    ∧ listState (depart_bullet_list (visit_bullet_list ⟨[], [], 0, 0, [], [], false⟩))
      = listState ⟨[], [], 0, 0, [], [], false⟩
    ∧ listState (depart_enumerated_list (visit_enumerated_list ⟨[], [], 0, 0, [], [], false⟩))
      = listState ⟨[], [], 0, 0, [], [], false⟩ :=
  visit_depart_state_balanced ⟨[], [], 0, 0, [], [], false⟩
    (visit_section ⟨[], [], 0, 0, [], [], false⟩)
    (visit_bullet_list ⟨[], [], 0, 0, [], [], false⟩)
    (visit_enumerated_list ⟨[], [], 0, 0, [], [], false⟩)
    rfl rfl rfl

/-- `takeWhile` swallows a prefix all of whose elements satisfy the predicate
and stops at the first failing element. -/
theorem takeWhile_append_cons (p : Char → Bool) (l1 : List Char) (a : Char)
    (l2 : List Char) (h : ∀ c ∈ l1, p c) (ha : ¬ p a) :
    (l1 ++ a :: l2).takeWhile p = l1 := by
  induction l1 with
  | nil => simpa using List.takeWhile_cons_of_neg (l := l2) ha
  | cons x xs ih =>
      have hx : p x := h x (by simp)
      simp only [List.cons_append, List.takeWhile_cons_of_pos hx]
      rw [ih (fun c hc => h c (by simp [hc]))]

/-- `dropWhile` drops a prefix all of whose elements satisfy the predicate
and stops at the first failing element. -/
theorem dropWhile_append_cons (p : Char → Bool) (l1 : List Char) (a : Char)
    (l2 : List Char) (h : ∀ c ∈ l1, p c) (ha : ¬ p a) :
    (l1 ++ a :: l2).dropWhile p = a :: l2 := by
  induction l1 with
  | nil => simpa using List.dropWhile_cons_of_neg (l := l2) ha
  | cons x xs ih =>
      have hx : p x := h x (by simp)
      simp only [List.cons_append, List.dropWhile_cons_of_pos hx]
      exact ih (fun c hc => h c (by simp [hc]))

/-- Claim C10 counterexample: for the dot-less uri "a#b\nc" the code returns
"a.ipynb#b" — the fragment is truncated at the newline, because the `.` in
`SPLIT_URI_ID_REGEX` does not match a newline — whereas the claim's "then
the remainder" promises "a.ipynb#b\nc". -/
theorem add_extension_newline_truncated :
    add_extension_to_inline_link "a#b\nc" ".ipynb" = "a.ipynb#b"
    ∧ ("a.ipynb#b" : String) ≠ "a" ++ ".ipynb" ++ "#" ++ "b\nc" :=
  ⟨by decide, by decide⟩

/-- Claim C10 (amended): `add_extension_to_inline_link(uri, ext)` returns
`uri` unchanged exactly when `uri` contains a '.' anywhere (including in a
directory segment); otherwise it returns the text before the first '#',
then `ext`, then '#', then the remainder after the first '#' truncated at
the first newline — so a dot-less uri with no fragment gains a trailing
bare '#' ("doc" becomes "doc.ipynb#"). -/
theorem add_extension_rules (uri ext : String) :
    (uri.data.contains '.' = true → add_extension_to_inline_link uri ext = uri)
    ∧ (uri.data.contains '.' = false → uri.data.contains '#' = false →
        add_extension_to_inline_link uri ext = uri ++ ext ++ "#")
    ∧ (∀ pre post : String, uri.data.contains '.' = false →
        uri = pre ++ "#" ++ post → pre.data.contains '#' = false →
        add_extension_to_inline_link uri ext
          = pre ++ ext ++ "#" ++ String.mk (post.data.takeWhile (fun c => c ≠ '\n'))) := by
  refine ⟨?_, ?_, ?_⟩
  · intro h
    have hmem : '.' ∈ uri.data := by simpa using h
    simp [add_extension_to_inline_link, hmem]
  · intro hdot hhash
    have hmem : '#' ∉ uri.data := by simpa using hhash
    have hdotmem : '.' ∉ uri.data := by simpa using hdot
    have htake : uri.data.takeWhile (fun c => decide (c ≠ '#')) = uri.data :=
      List.takeWhile_eq_self_iff.mpr (by
        intro c hc
        simp only [decide_eq_true_eq]
        intro hceq
        subst hceq
        exact hmem hc)
    have hdrop : uri.data.dropWhile (fun c => decide (c ≠ '#')) = [] :=
      List.dropWhile_eq_nil_iff.mpr (by
        intro c hc
        simp only [decide_eq_true_eq]
        intro hceq
        subst hceq
        exact hmem hc)
    unfold add_extension_to_inline_link split_uri_id
    rw [if_pos (by simpa using hdotmem : ¬ uri.data.contains '.' = true)]
    simp only [htake, hdrop, List.tail_nil, List.takeWhile_nil]
    show uri ++ ext ++ "#" ++ "" = uri ++ ext ++ "#"
    simp
  · intro pre post hdot hequri hpre
    have hmem : '#' ∉ pre.data := by simpa using hpre
    have hdotmem : '.' ∉ uri.data := by simpa using hdot
    have hdata : uri.data = pre.data ++ '#' :: post.data := by
      rw [hequri]
      simp [String.data_append]
    have hall : ∀ c ∈ pre.data, (fun c => decide (c ≠ '#')) c = true := by
      intro c hc
      simp only [decide_eq_true_eq]
      intro hceq
      subst hceq
      exact hmem hc
    have hneg : ¬ (fun c => decide (c ≠ '#')) '#' = true := by decide
    unfold add_extension_to_inline_link split_uri_id
    rw [if_pos (by simpa using hdotmem : ¬ uri.data.contains '.' = true)]
    rw [hdata, takeWhile_append_cons _ _ _ _ hall hneg,
      dropWhile_append_cons _ _ _ _ hall hneg]
    rfl

/-- Witness for C10 (amended): a dot-less fragment-less uri gains `ext ++ "#"`,
a uri with a '.' is unchanged, and a dot-less uri with a fragment keeps its
fragment behind the inserted extension. -/
theorem add_extension_rules_witness :
    add_extension_to_inline_link "doc" ".ipynb" = "doc.ipynb#"
    ∧ add_extension_to_inline_link "a.rst" ".ipynb" = "a.rst"
    ∧ add_extension_to_inline_link "doc#sec" ".ipynb" = "doc.ipynb#sec" :=
  ⟨((add_extension_rules "doc" ".ipynb").2.1 (by decide) (by decide)).trans (by decide),
   (add_extension_rules "a.rst" ".ipynb").1 (by decide),
   ((add_extension_rules "doc#sec" ".ipynb").2.2 "doc" "sec" (by decide) (by decide)
      (by decide)).trans (by decide)⟩

end SphinxJupyter
